import Mathlib

/-!
Verification of the font-fallback text segmentation and metrics engine
(`src/layout/text.rs`): a shallow embedding of `TextLayouter` and its
`layout` / `select_font` operations, together with theorems settling the
specification's claims about font selection, action batching, width
accumulation and error handling.

Modelling conventions:
* Machine integers (`usize`, font units) become `Nat`; the sentinel
  `std::usize::MAX` is the concrete value `2 ^ 64 - 1` (64-bit target).
* `f32` arithmetic (`Size`, the width formula) is modelled by exact
  rational arithmetic in `ℚ`.
* The external collaborator `SharedFontLoader` is a pure function from
  queries to an optional `(font, index)` pair; its internal caching
  mutation is unobservable at the contract boundary.
* Fallible Rust paths become `Except`: the `?` table reads map to
  `LayoutError.MissingTable`, and the two `.expect(...)` aborts map to
  `LayoutError.Panic` with the source's panic message.
* Struct mutation becomes explicit state passing on `TextLayouter`.
-/

set_option autoImplicit false

namespace TypstText

/-- Opaque font class tag (`toddle::query::FontClass`); its matching policy
is owned by the font source, so an abstract label suffices. -/
abbrev FontClass := Nat

/-- Modelled from the spec: `Size` from `crate::size` is missing from the
sources; per §3 it is a linear length in typographic points supporting
addition and scalar multiplication, with a zero. Exact rationals stand in
for the single-precision floats. `Size::pt` is then the identity embedding
of a number as a point length. -/
abbrev Size := ℚ

/-- Modelled from the spec: the two-dimensional extent of a layout
(width × height). -/
structure Size2D where
  x : Size
  y : Size
deriving DecidableEq, Repr

/-- A font query (`toddle::query::FontQuery`): required characters plus the
ordered class list for this attempt. -/
structure FontQuery where
  chars : List Char
  classes : List FontClass
deriving DecidableEq, Repr

/-- The readable tables of a loaded font. Each table is `Option`-valued
because `read_table::<_>()?` can fail; the per-character (`CharMap`) and
per-glyph (`HorizontalMetrics`) lookups are themselves partial, which is
where the source's `.expect(...)` aborts live. `header` is the
units-per-em value of the `Header` table; `horizontalMetrics` yields the
`advance_width` of a glyph. -/
structure Font where
  header : Option Nat
  charMap : Option (Char → Option Nat)
  horizontalMetrics : Option (Nat → Option Nat)

/-- The font source collaborator (`SharedFontLoader::get`): resolves a
query to a loaded font and its stable `usize` handle, or reports no
match. -/
abbrev FontLoader := FontQuery → Option (Font × Nat)

/-- Modelled from the spec: `TextStyle` from the enclosing layout module is
missing from the sources; per §3 it holds the positive `font_size` in
points, the primary `classes` and the ordered `fallback` chain. -/
structure TextStyle where
  font_size : Size
  classes : List FontClass
  fallback : List FontClass
deriving DecidableEq, Repr

/-- Modelled from the spec: a layout action, a closed sum of
`SetFont(handle, size)` and `WriteText(run)`. Text runs are character
lists (Rust `String`). -/
inductive LayoutAction where
  | SetFont (index : Nat) (size : Size)
  | WriteText (text : List Char)
deriving DecidableEq, Repr

/-- Modelled from the spec: the finished layout — dimensions, the ordered
action sequence (a `LayoutActionList` is an ordered sequence whose `add`
appends and whose `into_vec` reads the sequence back), and a debug-render
flag defaulting to off. -/
structure Layout where
  dimensions : Size2D
  actions : List LayoutAction
  debug_render : Bool
deriving DecidableEq, Repr

/-- The error/abort outcomes of layouting: `NoSuitableFont` is the
user-facing `LayoutError`; `MissingTable` models a failed
`read_table::<_>()?`; `Panic` models an `.expect(...)` abort with the
source's message. -/
inductive LayoutError where
  | NoSuitableFont (c : Char)
  | MissingTable
  | Panic (msg : String)
deriving DecidableEq, Repr

/-- The 64-bit `std::usize::MAX`, used by `TextLayouter::new` as the
initial (sentinel) active font handle. -/
def usizeMax : Nat := 2 ^ 64 - 1

/-- The mutable state of `TextLayouter` (the borrowed `style` is carried as
a field so that its preservation is provable; the `loader` is passed to
the operations). `classes` is the working class list, initialised from a
clone of `style.classes`. -/
structure TextLayouter where
  style : TextStyle
  actions : List LayoutAction
  buffer : List Char
  active_font : Nat
  width : Size
  classes : List FontClass
deriving DecidableEq, Repr

/-- `TextLayouter::new`: fresh state with empty action list and buffer,
sentinel active font, zero width, and a copy of the style's classes. -/
def TextLayouter.new (style : TextStyle) : TextLayouter :=
  { style := style
    actions := []
    buffer := []
    active_font := usizeMax
    width := 0
    classes := style.classes }

/-- The fallback loop inside `TextLayouter::select_font`: for each class of
`style.fallback` in order, push it onto the working class list, query the
loader with the single character and the current list; on a hit compute
the character width (propagating table errors and the two `expect`
aborts) and return WITHOUT popping the pushed class (the Rust `return`
skips the `self.classes.pop()`); on a miss pop the class and continue.
Returns the result together with the working class list as left behind. -/
def select_font_loop (loader : FontLoader) (font_size : Size) (c : Char) :
    List FontClass → List FontClass → Except LayoutError (Nat × Size) × List FontClass
  | classes, [] => (Except.error (LayoutError.NoSuitableFont c), classes)
  | classes, cls :: fallback =>
    let pushed := classes ++ [cls]
    match loader { chars := [c], classes := pushed } with
    | some (font, index) =>
      match font.header with
      | none => (Except.error LayoutError.MissingTable, pushed)
      | some units_per_em =>
        let font_unit_ratio : ℚ := 1 / (units_per_em : ℚ)
        match font.charMap with
        | none => (Except.error LayoutError.MissingTable, pushed)
        | some cmap =>
          match cmap c with
          | none => (Except.error (LayoutError.Panic "layout text: font should have char"), pushed)
          | some glyph =>
            match font.horizontalMetrics with
            | none => (Except.error LayoutError.MissingTable, pushed)
            | some hmtx =>
              match hmtx glyph with
              | none => (Except.error (LayoutError.Panic "layout text: font should have glyph"), pushed)
              | some advance_width =>
                let glyph_width : ℚ := (advance_width : ℚ)
                let char_width := font_unit_ratio * glyph_width * font_size
                (Except.ok (index, char_width), pushed)
    | none => select_font_loop loader font_size c classes fallback

/-- `TextLayouter::select_font`: run the fallback loop on the state's
working class list and store the list it leaves behind. -/
def TextLayouter.select_font (st : TextLayouter) (loader : FontLoader) (c : Char) :
    Except LayoutError (Nat × Size) × TextLayouter :=
  let r := select_font_loop loader st.style.font_size c st.classes st.style.fallback
  (r.1, { st with classes := r.2 })

/-- The body of one iteration of the character loop of
`TextLayouter::layout` after a successful selection (source lines 64–76):
accumulate the width, flush the buffer and switch fonts when the resolved
handle differs from the active one, then append the character to the
buffer. -/
def layout_step (st : TextLayouter) (c : Char) (index : Nat) (char_width : Size) :
    TextLayouter :=
  let st1 : TextLayouter := { st with width := st.width + char_width }
  let st2 : TextLayouter :=
    if st1.active_font ≠ index then
      let st1' : TextLayouter :=
        if st1.buffer ≠ [] then
          { st1 with actions := st1.actions ++ [LayoutAction.WriteText st1.buffer]
                     buffer := [] }
        else st1
      { st1' with actions := st1'.actions ++ [LayoutAction.SetFont index st1'.style.font_size]
                  active_font := index }
    else st1
  { st2 with buffer := st2.buffer ++ [c] }

/-- The character loop of `TextLayouter::layout`: select a font for each
character and perform `layout_step`. On a selection error the loop stops,
keeping the state for inspection (the Rust `?` drops it). -/
def layout_loop (loader : FontLoader) :
    List Char → TextLayouter → TextLayouter × Option LayoutError
  | [], st => (st, none)
  | c :: rest, st =>
    match st.select_font loader c with
    | (Except.error e, st') => (st', some e)
    | (Except.ok (index, char_width), st') =>
      layout_loop loader rest (layout_step st' c index char_width)

/-- `TextLayouter::layout`: run the character loop, flush a pending final
buffer, and assemble the `Layout` with dimensions (accumulated width,
`Size::pt(font_size)`) and debug rendering off. -/
def TextLayouter.layout (st : TextLayouter) (loader : FontLoader) (text : List Char) :
    Except LayoutError Layout :=
  match layout_loop loader text st with
  | (_, some e) => Except.error e
  | (stf, none) =>
    let stf' : TextLayouter :=
      if stf.buffer ≠ [] then
        { stf with actions := stf.actions ++ [LayoutAction.WriteText stf.buffer] }
      else stf
    Except.ok
      { dimensions := { x := stf'.width, y := stf'.style.font_size }
        actions := stf'.actions
        debug_render := false }

/-- `layout_text`: the public entry point, `TextLayouter::new(text, ctx).layout()`. -/
def layout_text (loader : FontLoader) (text : List Char) (style : TextStyle) :
    Except LayoutError Layout :=
  (TextLayouter.new style).layout loader text

/-! Observables on action sequences, used to state the batching claims. -/

/-- Concatenation of all `WriteText` payloads of an action sequence, in
order. -/
def writtenText : List LayoutAction → List Char
  | [] => []
  | LayoutAction.WriteText s :: rest => s ++ writtenText rest
  | LayoutAction.SetFont _ _ :: rest => writtenText rest

/-- Number of `SetFont` actions in a sequence. -/
def countSetFont : List LayoutAction → Nat
  | [] => 0
  | LayoutAction.SetFont _ _ :: rest => countSetFont rest + 1
  | LayoutAction.WriteText _ :: rest => countSetFont rest

/-- Replaying an action sequence from current font `cur`, every `SetFont`
actually changes the current font: there is no redundant `SetFont` for
the font already active, in particular never two consecutive `SetFont`
actions with the same handle. -/
def replayValid : Nat → List LayoutAction → Prop
  | _, [] => True
  | cur, LayoutAction.SetFont i _ :: rest => i ≠ cur ∧ replayValid i rest
  | cur, LayoutAction.WriteText _ :: rest => replayValid cur rest

/-- The current font after replaying an action sequence from `cur`. -/
def lastFont : Nat → List LayoutAction → Nat
  | cur, [] => cur
  | _, LayoutAction.SetFont i _ :: rest => lastFont i rest
  | cur, LayoutAction.WriteText _ :: rest => lastFont cur rest

/-- Follows the spec's words (§8, width property): the per-character
advance sequence — for each character, in order, the width
`ratio * advance_units * font_size` computed by the font resolved for
that character — collected with no reference to batching. Selection
itself is the source's `select_font_loop`, threading the working class
list exactly as the layouter does. -/
def charWidths (loader : FontLoader) (style : TextStyle) :
    List FontClass → List Char → Option (List Size)
  | _, [] => some []
  | classes, c :: rest =>
    match select_font_loop loader style.font_size c classes style.fallback with
    | (Except.ok (_, w), classes') =>
      (charWidths loader style classes' rest).map (fun ws => w :: ws)
    | (Except.error _, _) => none

/-! Concrete fixtures: small fonts, styles and loaders on which the
claims are instantiated and, where they fail, refuted. -/

/-- A well-behaved font: 1000 units per em, every character mapped to
glyph 3, every glyph with advance width 500. -/
def fontGood : Font :=
  { header := some 1000
    charMap := some (fun _ => some 3)
    horizontalMetrics := some (fun _ => some 500) }

/-- A second well-behaved font: 100 units per em, every character mapped
to glyph 1, every glyph with advance width 200. -/
def fontWide : Font :=
  { header := some 100
    charMap := some (fun _ => some 1)
    horizontalMetrics := some (fun _ => some 200) }

/-- Style with no primary classes and the two-tag fallback chain `[0, 1]`. -/
def styleTwoTags : TextStyle := { font_size := 10, classes := [], fallback := [0, 1] }

/-- Style with a single fallback tag. -/
def styleOneTag : TextStyle := { font_size := 10, classes := [], fallback := [0] }

/-- Style for the sentinel counterexamples, single fallback tag. -/
def styleSentinel : TextStyle := { font_size := 7, classes := [], fallback := [2] }

/-- Style with a primary class but an empty fallback chain. -/
def styleNoFallback : TextStyle := { font_size := 10, classes := [5], fallback := [] }

/-- Loader refuting C1: it resolves the query for `a` under the first
fallback tag alone and the query for `b` under the second fallback tag
alone, and nothing else. Were the trial tag removed after a success, the
text `"ab"` would lay out; with the tag retained, the queries for `b`
become `[0, 0]` and `[0, 1]` and both miss. -/
def loaderC1 : FontLoader := fun q =>
  if q = { chars := ['a'], classes := [0] } then some (fontGood, 0)
  else if q = { chars := ['b'], classes := [1] } then some (fontGood, 0)
  else none

/-- A loader that resolves every query to `fontGood` with handle 7. -/
def loaderAll7 : FontLoader := fun _ => some (fontGood, 7)

/-- A loader that resolves every query to `fontGood` with handle 0. -/
def loaderAll0 : FontLoader := fun _ => some (fontGood, 0)

/-- A loader that resolves every query to `fontGood` with the handle
`usizeMax` — the very value the layouter uses as its sentinel. -/
def loaderMax : FontLoader := fun _ => some (fontGood, usizeMax)

/-- A loader that resolves every query to `fontWide` with handle
`usizeMax`, for the C7 sentinel counterexample. -/
def loaderMaxWide : FontLoader := fun _ => some (fontWide, usizeMax)

/-- Loader for the C6 witness: misses the query for `c` under the first
fallback tag, hits under the second. -/
def loaderSecondTag : FontLoader := fun q =>
  if q = { chars := ['c'], classes := [1] } then some (fontGood, 4)
  else none

end TypstText

namespace TypstText

/-! Basic facts about the observables. -/

theorem writtenText_append (xs ys : List LayoutAction) :
    writtenText (xs ++ ys) = writtenText xs ++ writtenText ys := by
  induction xs with
  | nil => rfl
  | cons a rest ih => cases a <;> simp [writtenText, ih]

theorem countSetFont_append (xs ys : List LayoutAction) :
    countSetFont (xs ++ ys) = countSetFont xs + countSetFont ys := by
  induction xs with
  | nil => simp [countSetFont]
  | cons a rest ih =>
    cases a with
    | SetFont i s => simp [countSetFont, ih]; omega
    | WriteText t => simp [countSetFont, ih]

theorem lastFont_append (xs ys : List LayoutAction) :
    ∀ cur, lastFont cur (xs ++ ys) = lastFont (lastFont cur xs) ys := by
  induction xs with
  | nil => intro cur; rfl
  | cons a rest ih => intro cur; cases a <;> simp [lastFont, ih]

theorem replayValid_append (xs ys : List LayoutAction) :
    ∀ cur, replayValid cur (xs ++ ys) ↔
      (replayValid cur xs ∧ replayValid (lastFont cur xs) ys) := by
  induction xs with
  | nil => intro cur; simp [replayValid, lastFont]
  | cons a rest ih =>
    intro cur
    cases a with
    | SetFont i s => simp [replayValid, lastFont, ih]; tauto
    | WriteText t => simp [replayValid, lastFont, ih]

/-! Equations and case characterisations of the loop and its step. -/

theorem layout_loop_cons_err (loader : FontLoader) (c : Char) (rest : List Char)
    (st : TextLayouter) (e : LayoutError) (classes' : List FontClass)
    (hsel : select_font_loop loader st.style.font_size c st.classes st.style.fallback
      = (Except.error e, classes')) :
    layout_loop loader (c :: rest) st = ({ st with classes := classes' }, some e) := by
  simp only [layout_loop, TextLayouter.select_font]
  rw [hsel]

theorem layout_loop_cons_ok (loader : FontLoader) (c : Char) (rest : List Char)
    (st : TextLayouter) (index : Nat) (char_width : Size) (classes' : List FontClass)
    (hsel : select_font_loop loader st.style.font_size c st.classes st.style.fallback
      = (Except.ok (index, char_width), classes')) :
    layout_loop loader (c :: rest) st
      = layout_loop loader rest (layout_step { st with classes := classes' } c index char_width) := by
  simp only [layout_loop, TextLayouter.select_font]
  rw [hsel]

/-- `layout_step` when the resolved handle equals the active one: only
width and buffer change. -/
theorem layout_step_stay (st : TextLayouter) (c : Char) (index : Nat) (w : Size)
    (h : st.active_font = index) :
    layout_step st c index w
      = { st with width := st.width + w, buffer := st.buffer ++ [c] } := by
  unfold layout_step
  simp [h]

/-- `layout_step` on a font switch with an empty buffer: a single
`SetFont` is appended. -/
theorem layout_step_switch (st : TextLayouter) (c : Char) (index : Nat) (w : Size)
    (h : st.active_font ≠ index) (hb : st.buffer = []) :
    layout_step st c index w
      = { st with width := st.width + w
                  actions := st.actions ++ [LayoutAction.SetFont index st.style.font_size]
                  active_font := index
                  buffer := [c] } := by
  unfold layout_step
  simp [h, hb]

/-- `layout_step` on a font switch with a pending buffer: the buffer is
flushed as a `WriteText` and a `SetFont` follows. -/
theorem layout_step_flush (st : TextLayouter) (c : Char) (index : Nat) (w : Size)
    (h : st.active_font ≠ index) (hb : st.buffer ≠ []) :
    layout_step st c index w
      = { st with width := st.width + w
                  actions := st.actions ++ [LayoutAction.WriteText st.buffer,
                    LayoutAction.SetFont index st.style.font_size]
                  active_font := index
                  buffer := [c] } := by
  unfold layout_step
  simp [h, hb]

end TypstText

namespace TypstText

theorem layout_step_style (st : TextLayouter) (c : Char) (index : Nat) (w : Size) :
    (layout_step st c index w).style = st.style := by
  simp only [layout_step]
  split_ifs <;> rfl

theorem layout_step_classes (st : TextLayouter) (c : Char) (index : Nat) (w : Size) :
    (layout_step st c index w).classes = st.classes := by
  simp only [layout_step]
  split_ifs <;> rfl

theorem layout_step_width (st : TextLayouter) (c : Char) (index : Nat) (w : Size) :
    (layout_step st c index w).width = st.width + w := by
  simp only [layout_step]
  split_ifs <;> rfl

theorem layout_step_actions_extend (st : TextLayouter) (c : Char) (index : Nat) (w : Size) :
    ∃ suf, (layout_step st c index w).actions = st.actions ++ suf := by
  by_cases h1 : st.active_font = index
  · exact ⟨[], by rw [layout_step_stay st c index w h1]; simp⟩
  · by_cases h2 : st.buffer = []
    · exact ⟨[LayoutAction.SetFont index st.style.font_size],
        by rw [layout_step_switch st c index w h1 h2]⟩
    · exact ⟨[LayoutAction.WriteText st.buffer, LayoutAction.SetFont index st.style.font_size],
        by rw [layout_step_flush st c index w h1 h2]⟩

/-- The character loop never changes the carried style, whether it ends in
success or in an error. -/
theorem layout_loop_style (loader : FontLoader) :
    ∀ (text : List Char) (st : TextLayouter),
      ((layout_loop loader text st).1).style = st.style := by
  intro text
  induction text with
  | nil => intro st; rfl
  | cons c rest ih =>
    intro st
    rcases hsel : select_font_loop loader st.style.font_size c st.classes st.style.fallback
      with ⟨res, classes'⟩
    cases res with
    | error e => rw [layout_loop_cons_err loader c rest st e classes' hsel]
    | ok iw =>
      rcases iw with ⟨index, char_width⟩
      rw [layout_loop_cons_ok loader c rest st index char_width classes' hsel,
        ih, layout_step_style]

/-- The character loop only ever appends to the action list. -/
theorem layout_loop_actions_extend (loader : FontLoader) :
    ∀ (text : List Char) (st : TextLayouter),
      ∃ suf, ((layout_loop loader text st).1).actions = st.actions ++ suf := by
  intro text
  induction text with
  | nil => intro st; exact ⟨[], by simp [layout_loop]⟩
  | cons c rest ih =>
    intro st
    rcases hsel : select_font_loop loader st.style.font_size c st.classes st.style.fallback
      with ⟨res, classes'⟩
    cases res with
    | error e =>
      exact ⟨[], by rw [layout_loop_cons_err loader c rest st e classes' hsel]; simp⟩
    | ok iw =>
      rcases iw with ⟨index, char_width⟩
      obtain ⟨s1, hs1⟩ :=
        layout_step_actions_extend { st with classes := classes' } c index char_width
      obtain ⟨s2, hs2⟩ :=
        ih (layout_step { st with classes := classes' } c index char_width)
      refine ⟨s1 ++ s2, ?_⟩
      rw [layout_loop_cons_ok loader c rest st index char_width classes' hsel, hs2, hs1]
      simp

/-- Splitting the character loop at a list concatenation. -/
theorem layout_loop_append (loader : FontLoader) :
    ∀ (xs ys : List Char) (st : TextLayouter),
      layout_loop loader (xs ++ ys) st =
        match layout_loop loader xs st with
        | (st1, none) => layout_loop loader ys st1
        | (st1, some e) => (st1, some e) := by
  intro xs
  induction xs with
  | nil => intro ys st; rfl
  | cons c rest ih =>
    intro ys st
    rcases hsel : select_font_loop loader st.style.font_size c st.classes st.style.fallback
      with ⟨res, classes'⟩
    cases res with
    | error e =>
      rw [List.cons_append, layout_loop_cons_err loader c (rest ++ ys) st e classes' hsel,
        layout_loop_cons_err loader c rest st e classes' hsel]
    | ok iw =>
      rcases iw with ⟨index, char_width⟩
      rw [List.cons_append, layout_loop_cons_ok loader c (rest ++ ys) st index char_width classes' hsel,
        layout_loop_cons_ok loader c rest st index char_width classes' hsel, ih]

end TypstText

namespace TypstText

/-- One step preserves the batching invariant: the action list replays
without redundant font switches, its final font is the active font, and
its writes plus the pending buffer spell the consumed text. -/
theorem layout_step_batching (st : TextLayouter) (c : Char) (index : Nat) (w : Size)
    (c0 : Nat)
    (hv : replayValid c0 st.actions)
    (hl : lastFont c0 st.actions = st.active_font) :
    replayValid c0 (layout_step st c index w).actions
      ∧ lastFont c0 (layout_step st c index w).actions = (layout_step st c index w).active_font
      ∧ writtenText (layout_step st c index w).actions ++ (layout_step st c index w).buffer
          = writtenText st.actions ++ st.buffer ++ [c] := by
  by_cases h1 : st.active_font = index
  · rw [layout_step_stay st c index w h1]
    exact ⟨hv, hl, by simp⟩
  · by_cases h2 : st.buffer = []
    · rw [layout_step_switch st c index w h1 h2]
      refine ⟨?_, ?_, ?_⟩
      · rw [replayValid_append]
        exact ⟨hv, by simp [replayValid, hl]; exact fun hh => h1 hh.symm⟩
      · simp [lastFont_append, lastFont]
      · simp [writtenText_append, writtenText, h2]
    · rw [layout_step_flush st c index w h1 h2]
      refine ⟨?_, ?_, ?_⟩
      · rw [replayValid_append]
        refine ⟨hv, ?_⟩
        simp [replayValid, hl]
        exact fun hh => h1 hh.symm
      · simp [lastFont_append, lastFont]
      · simp [writtenText_append, writtenText]

/-- The loop-level batching invariant. -/
theorem layout_loop_batching (loader : FontLoader) :
    ∀ (text : List Char) (st stf : TextLayouter) (c0 : Nat),
      layout_loop loader text st = (stf, none) →
      replayValid c0 st.actions →
      lastFont c0 st.actions = st.active_font →
      replayValid c0 stf.actions
        ∧ lastFont c0 stf.actions = stf.active_font
        ∧ writtenText stf.actions ++ stf.buffer
            = writtenText st.actions ++ st.buffer ++ text := by
  intro text
  induction text with
  | nil =>
    intro st stf c0 h hv hl
    have hst : st = stf := congrArg Prod.fst h
    subst hst
    exact ⟨hv, hl, by simp⟩
  | cons c rest ih =>
    intro st stf c0 h hv hl
    rcases hsel : select_font_loop loader st.style.font_size c st.classes st.style.fallback
      with ⟨res, classes'⟩
    cases res with
    | error e =>
      rw [layout_loop_cons_err loader c rest st e classes' hsel] at h
      exact absurd (congrArg Prod.snd h) (by simp)
    | ok iw =>
      rcases iw with ⟨index, char_width⟩
      rw [layout_loop_cons_ok loader c rest st index char_width classes' hsel] at h
      obtain ⟨hv', hl', hw'⟩ :=
        layout_step_batching { st with classes := classes' } c index char_width c0 hv hl
      obtain ⟨v2, l2, w2⟩ := ih (layout_step { st with classes := classes' } c index char_width)
        stf c0 h hv' hl'
      refine ⟨v2, l2, ?_⟩
      rw [w2, hw']
      simp

/-- Under a loader that resolves every query to the same `(font, handle)`
pair, a successful selection always yields that handle. -/
theorem select_font_loop_uniform (loader : FontLoader) (F : Font) (i0 : Nat)
    (hu : ∀ q, loader q = some (F, i0)) (font_size : Size) (c : Char)
    (classes fallback : List FontClass) (index : Nat) (w : Size) (classes' : List FontClass)
    (h : select_font_loop loader font_size c classes fallback
      = (Except.ok (index, w), classes')) :
    index = i0 := by
  cases fallback with
  | nil => simp [select_font_loop] at h
  | cons cls fb =>
    obtain ⟨hdr, cm, hm⟩ := F
    simp only [select_font_loop] at h
    rw [hu { chars := [c], classes := classes ++ [cls] }] at h
    cases hdr with
    | none => dsimp only at h; simp at h
    | some upm =>
      cases cm with
      | none => dsimp only at h; simp at h
      | some cmap =>
        dsimp only at h
        rcases hg : cmap c with _ | glyph
        · rw [hg] at h; simp at h
        · rw [hg] at h
          dsimp only at h
          cases hm with
          | none => simp at h
          | some hmtx =>
            dsimp only at h
            rcases ha : hmtx glyph with _ | adv
            · rw [ha] at h; simp at h
            · rw [ha] at h
              simp at h
              exact h.1.1.symm

/-- Under a uniform loader, once the active font is the loader's handle,
the loop never emits another action. -/
theorem layout_loop_uniform (loader : FontLoader) (F : Font) (i0 : Nat)
    (hu : ∀ q, loader q = some (F, i0)) :
    ∀ (text : List Char) (st stf : TextLayouter),
      layout_loop loader text st = (stf, none) →
      st.active_font = i0 →
      stf.active_font = i0 ∧ stf.actions = st.actions := by
  intro text
  induction text with
  | nil =>
    intro st stf h ha
    have hst : st = stf := congrArg Prod.fst h
    subst hst
    exact ⟨ha, rfl⟩
  | cons c rest ih =>
    intro st stf h ha
    rcases hsel : select_font_loop loader st.style.font_size c st.classes st.style.fallback
      with ⟨res, classes'⟩
    cases res with
    | error e =>
      rw [layout_loop_cons_err loader c rest st e classes' hsel] at h
      exact absurd (congrArg Prod.snd h) (by simp)
    | ok iw =>
      rcases iw with ⟨index, char_width⟩
      have hidx : index = i0 :=
        select_font_loop_uniform loader F i0 hu st.style.font_size c st.classes
          st.style.fallback index char_width classes' hsel
      rw [layout_loop_cons_ok loader c rest st index char_width classes' hsel] at h
      rw [layout_step_stay { st with classes := classes' } c index char_width
        (by simp [ha, hidx])] at h
      obtain ⟨h1, h2⟩ := ih _ stf h (by simpa using ha)
      exact ⟨h1, by simpa using h2⟩

end TypstText

namespace TypstText

/-- When the loader misses the pushed query, the fallback loop continues
with the tag popped: the working list is restored to `classes`. -/
theorem select_font_loop_cons_none (loader : FontLoader) (font_size : Size) (c : Char)
    (classes : List FontClass) (cls : FontClass) (fb : List FontClass)
    (hq : loader { chars := [c], classes := classes ++ [cls] } = none) :
    select_font_loop loader font_size c classes (cls :: fb)
      = select_font_loop loader font_size c classes fb := by
  simp only [select_font_loop]
  rw [hq]

/-- When the loader hits the pushed query, the fallback loop stops inside
this iteration: the pushed tag is never popped again, and the result is a
success, a table error or one of the two lookup aborts — never
`NoSuitableFont`. -/
theorem select_font_loop_cons_some (loader : FontLoader) (font_size : Size) (c : Char)
    (classes : List FontClass) (cls : FontClass) (fb : List FontClass)
    (font : Font) (index : Nat)
    (hq : loader { chars := [c], classes := classes ++ [cls] } = some (font, index)) :
    (select_font_loop loader font_size c classes (cls :: fb)).2 = classes ++ [cls]
      ∧ ((∃ iw, (select_font_loop loader font_size c classes (cls :: fb)).1 = Except.ok iw)
          ∨ (select_font_loop loader font_size c classes (cls :: fb)).1
              = Except.error LayoutError.MissingTable
          ∨ ∃ msg, (select_font_loop loader font_size c classes (cls :: fb)).1
              = Except.error (LayoutError.Panic msg)) := by
  simp only [select_font_loop]
  rw [hq]
  obtain ⟨hdr, cm, hm⟩ := font
  cases hdr with
  | none => exact ⟨rfl, Or.inr (Or.inl rfl)⟩
  | some upm =>
    cases cm with
    | none => exact ⟨rfl, Or.inr (Or.inl rfl)⟩
    | some cmap =>
      dsimp only
      rcases _hg : cmap c with _ | glyph
      · exact ⟨rfl, Or.inr (Or.inr ⟨_, rfl⟩)⟩
      · cases hm with
        | none => exact ⟨rfl, Or.inr (Or.inl rfl)⟩
        | some hmtx =>
          dsimp only
          rcases _ha : hmtx glyph with _ | adv
          · exact ⟨rfl, Or.inr (Or.inr ⟨_, rfl⟩)⟩
          · exact ⟨rfl, Or.inl ⟨_, rfl⟩⟩

/-- Under the font-source contract — every resolved font maps every
required character and has metrics for the mapped glyph — the fallback
loop never reaches either `expect` abort. -/
theorem select_font_loop_no_panic (loader : FontLoader)
    (contract : ∀ q font i, loader q = some (font, i) → ∀ c ∈ q.chars,
      ∃ cmap glyph hmtx adv, font.charMap = some cmap ∧ cmap c = some glyph
        ∧ font.horizontalMetrics = some hmtx ∧ hmtx glyph = some adv)
    (font_size : Size) (c : Char) :
    ∀ (fallback classes : List FontClass) (msg : String),
      (select_font_loop loader font_size c classes fallback).1
        ≠ Except.error (LayoutError.Panic msg) := by
  intro fallback
  induction fallback with
  | nil => intro classes msg h; simp [select_font_loop] at h
  | cons cls fb ih =>
    intro classes msg h
    rcases hq : loader { chars := [c], classes := classes ++ [cls] } with _ | ⟨font, index⟩
    · rw [select_font_loop_cons_none loader font_size c classes cls fb hq] at h
      exact ih classes msg h
    · obtain ⟨cmap, glyph, hmtx, adv, hcm, hg, hhm, ha⟩ :=
        contract _ font index hq c (by simp)
      simp only [select_font_loop] at h
      rw [hq] at h
      obtain ⟨hdr, cm, hm⟩ := font
      cases hm with
      | none => simp at hhm
      | some hmtx' =>
        cases cm with
        | none => simp at hcm
        | some cmap' =>
          have hcm' : cmap' = cmap := by simpa using hcm
          have hhm' : hmtx' = hmtx := by simpa using hhm
          subst hcm'
          subst hhm'
          cases hdr with
          | none => dsimp only at h; simp at h
          | some upm =>
            dsimp only at h
            rw [hg] at h
            dsimp only at h
            rw [ha] at h
            simp at h

/-- The character loop never surfaces a `Panic` under the contract. -/
theorem layout_loop_no_panic (loader : FontLoader)
    (contract : ∀ q font i, loader q = some (font, i) → ∀ c ∈ q.chars,
      ∃ cmap glyph hmtx adv, font.charMap = some cmap ∧ cmap c = some glyph
        ∧ font.horizontalMetrics = some hmtx ∧ hmtx glyph = some adv) :
    ∀ (text : List Char) (st : TextLayouter) (msg : String),
      (layout_loop loader text st).2 ≠ some (LayoutError.Panic msg) := by
  intro text
  induction text with
  | nil => intro st msg h; simp [layout_loop] at h
  | cons c rest ih =>
    intro st msg h
    rcases hsel : select_font_loop loader st.style.font_size c st.classes st.style.fallback
      with ⟨res, classes'⟩
    cases res with
    | error e =>
      rw [layout_loop_cons_err loader c rest st e classes' hsel] at h
      have he : e = LayoutError.Panic msg := by simpa using h
      subst he
      exact select_font_loop_no_panic loader contract st.style.font_size c
        st.style.fallback st.classes msg (by rw [hsel])
    | ok iw =>
      rcases iw with ⟨index, char_width⟩
      rw [layout_loop_cons_ok loader c rest st index char_width classes' hsel] at h
      exact ih _ msg h

/-- The loop's accumulated width is the spec-side sum of per-character
advances. -/
theorem layout_loop_charWidths (loader : FontLoader) :
    ∀ (text : List Char) (st stf : TextLayouter),
      layout_loop loader text st = (stf, none) →
      ∃ ws, charWidths loader st.style st.classes text = some ws
        ∧ stf.width = st.width + ws.sum := by
  intro text
  induction text with
  | nil =>
    intro st stf h
    have hst : st = stf := congrArg Prod.fst h
    subst hst
    exact ⟨[], rfl, by simp⟩
  | cons c rest ih =>
    intro st stf h
    rcases hsel : select_font_loop loader st.style.font_size c st.classes st.style.fallback
      with ⟨res, classes'⟩
    cases res with
    | error e =>
      rw [layout_loop_cons_err loader c rest st e classes' hsel] at h
      exact absurd (congrArg Prod.snd h) (by simp)
    | ok iw =>
      rcases iw with ⟨index, char_width⟩
      rw [layout_loop_cons_ok loader c rest st index char_width classes' hsel] at h
      obtain ⟨ws, hws, hw⟩ :=
        ih (layout_step { st with classes := classes' } c index char_width) stf h
      refine ⟨char_width :: ws, ?_, ?_⟩
      · simp only [charWidths]
        rw [hsel]
        have hstyle : (layout_step { st with classes := classes' } c index char_width).style
            = st.style := by
          rw [layout_step_style]
        have hclasses : (layout_step { st with classes := classes' } c index char_width).classes
            = classes' := by
          rw [layout_step_classes]
        rw [hstyle, hclasses] at hws
        dsimp only
        rw [hws]
        rfl
      · rw [hw, layout_step_width]
        simp only [List.sum_cons]
        ring
end TypstText

namespace TypstText

/-- Anatomy of a successful layout call: the loop ran to completion, the
final buffer was flushed when pending, the width is the accumulated
width, and the height is the style's font size. -/
theorem layout_text_ok_elim (loader : FontLoader) (text : List Char) (style : TextStyle)
    (l : Layout) (h : layout_text loader text style = Except.ok l) :
    ∃ stf, layout_loop loader text (TextLayouter.new style) = (stf, none)
      ∧ ((stf.buffer = [] ∧ l.actions = stf.actions)
          ∨ (stf.buffer ≠ [] ∧ l.actions = stf.actions ++ [LayoutAction.WriteText stf.buffer]))
      ∧ l.dimensions.x = stf.width
      ∧ l.dimensions.y = style.font_size := by
  unfold layout_text TextLayouter.layout at h
  rcases hloop : layout_loop loader text (TextLayouter.new style) with ⟨stf, o⟩
  rw [hloop] at h
  cases o with
  | some e =>
    dsimp only at h
    exact absurd h (by simp)
  | none =>
    dsimp only at h
    have hsty : stf.style = style := by
      have hs := layout_loop_style loader text (TextLayouter.new style)
      rw [hloop] at hs
      exact hs
    refine ⟨stf, rfl, ?_⟩
    split_ifs at h with hb
    · injection h with h'
      subst h'
      exact ⟨Or.inr ⟨hb, by simp⟩, by simp, by simp [hsty]⟩
    · injection h with h'
      subst h'
      exact ⟨Or.inl ⟨by simpa using hb, by simp⟩, by simp, by simp [hsty]⟩

/-- C8: layout of empty input returns a layout with an empty action list,
zero width, and height equal to `style.font_size`. -/
theorem C8_empty_input (loader : FontLoader) (style : TextStyle) :
    layout_text loader [] style
      = Except.ok { dimensions := { x := 0, y := style.font_size }
                    actions := []
                    debug_render := false } := by
  rfl

/-- C10: layouting never mutates the carried style — after running the
character loop over any text from any starting state, on success or
failure, the state's style (hence its font size, classes and fallback
list) is the one it started with; all class-list manipulation happens on
the separate working `classes` field. -/
theorem C10_style_immutable (loader : FontLoader) (text : List Char) (st : TextLayouter) :
    ((layout_loop loader text st).1).style = st.style :=
  layout_loop_style loader text st

/-- C2 (amended): when `style.fallback` is empty the fallback loop has
nothing to iterate over, so no font query is ever issued — layout of any
non-empty text fails with `NoSuitableFont` on the first character, no
matter what the font source would answer; the primary classes alone are
never tried. -/
theorem C2_empty_fallback_always_fails (loader : FontLoader) (style : TextStyle)
    (c : Char) (rest : List Char) (h : style.fallback = []) :
    layout_text loader (c :: rest) style
      = Except.error (LayoutError.NoSuitableFont c) := by
  have hsel : select_font_loop loader (TextLayouter.new style).style.font_size c
      (TextLayouter.new style).classes (TextLayouter.new style).style.fallback
      = (Except.error (LayoutError.NoSuitableFont c), (TextLayouter.new style).classes) := by
    show select_font_loop loader style.font_size c style.classes style.fallback = _
    rw [h]
    rfl
  unfold layout_text TextLayouter.layout
  rw [layout_loop_cons_err loader c rest (TextLayouter.new style)
    (LayoutError.NoSuitableFont c) (TextLayouter.new style).classes hsel]

/-- C2, counterexample to the claim as stated: the loader resolves every
query — in particular the one with exactly the primary classes — yet with
an empty fallback list the layout of `"a"` still fails, because no query
is issued at all. -/
theorem C2_counterexample :
    loaderAll0 { chars := ['a'], classes := styleNoFallback.classes } = some (fontGood, 0)
      ∧ layout_text loaderAll0 ['a'] styleNoFallback
          = Except.error (LayoutError.NoSuitableFont 'a') := by
  exact ⟨rfl, rfl⟩

/-- C4: as soon as one character exhausts the fallback chain without a
hit, the whole layout call fails with `NoSuitableFont` carrying exactly
that character; the characters after it are never processed (the result
is the same for every continuation `post`), and no layout value or action
list is returned. -/
theorem C4_unresolvable_char_aborts (loader : FontLoader) (style : TextStyle)
    (pre : List Char) (c : Char) (st1 : TextLayouter)
    (h1 : layout_loop loader pre (TextLayouter.new style) = (st1, none))
    (h2 : (select_font_loop loader st1.style.font_size c st1.classes st1.style.fallback).1
      = Except.error (LayoutError.NoSuitableFont c)) :
    ∀ post, layout_text loader (pre ++ c :: post) style
      = Except.error (LayoutError.NoSuitableFont c) := by
  intro post
  unfold layout_text TextLayouter.layout
  rw [layout_loop_append loader pre (c :: post) (TextLayouter.new style), h1]
  dsimp only
  rcases hsel : select_font_loop loader st1.style.font_size c st1.classes st1.style.fallback
    with ⟨res, classes'⟩
  have hres : res = Except.error (LayoutError.NoSuitableFont c) := by
    have h2' := h2
    rw [hsel] at h2'
    exact h2'
  subst hres
  rw [layout_loop_cons_err loader c post st1 (LayoutError.NoSuitableFont c) classes' hsel]

/-- C4, witness: under `loaderC1` the character `x` resolves nowhere, so
the layout of `"xb"` fails with `NoSuitableFont('x')` without the loader
ever being consulted about `b`. -/
theorem C4_witness :
    layout_text loaderC1 ([] ++ 'x' :: ['b']) styleTwoTags
      = Except.error (LayoutError.NoSuitableFont 'x') :=
  C4_unresolvable_char_aborts loaderC1 styleTwoTags [] 'x' (TextLayouter.new styleTwoTags)
    rfl (by rfl) ['b']

/-- C2, witness: a concrete style with empty fallback and a loader that
resolves everything, on the text `"a"`. -/
theorem C2_witness :
    layout_text loaderAll0 ['a'] styleNoFallback
      = Except.error (LayoutError.NoSuitableFont 'a') :=
  C2_empty_fallback_always_fails loaderAll0 styleNoFallback 'a' [] rfl

end TypstText

namespace TypstText

/-- C1 (amended): a fallback tag pushed during font selection is popped
only when its query misses; when the query hits, the `return` skips the
pop and the tag stays on the working class list — the list comes back as
the entry list plus the successful tag. Only when every tag misses
(`NoSuitableFont`) is the list restored to the entry list. Since the
working list survives from one character to the next, later queries carry
the fallback tags that succeeded for earlier characters. -/
theorem C1_tag_popped_only_on_miss (loader : FontLoader) (font_size : Size) (c : Char) :
    ∀ (fallback classes : List FontClass),
      ((∃ iw, (select_font_loop loader font_size c classes fallback).1 = Except.ok iw) →
        ∃ t, t ∈ fallback
          ∧ (select_font_loop loader font_size c classes fallback).2 = classes ++ [t])
      ∧ ((select_font_loop loader font_size c classes fallback).1
            = Except.error (LayoutError.NoSuitableFont c) →
          (select_font_loop loader font_size c classes fallback).2 = classes) := by
  intro fallback
  induction fallback with
  | nil =>
    intro classes
    constructor
    · rintro ⟨iw, hiw⟩
      simp [select_font_loop] at hiw
    · intro _
      rfl
  | cons cls fb ih =>
    intro classes
    rcases hq : loader { chars := [c], classes := classes ++ [cls] } with _ | ⟨font, index⟩
    · rw [select_font_loop_cons_none loader font_size c classes cls fb hq]
      constructor
      · intro hok
        obtain ⟨t, ht, h2⟩ := (ih classes).1 hok
        exact ⟨t, List.mem_cons_of_mem _ ht, h2⟩
      · exact (ih classes).2
    · obtain ⟨hsnd, hfst⟩ :=
        select_font_loop_cons_some loader font_size c classes cls fb font index hq
      constructor
      · intro _
        exact ⟨cls, List.mem_cons_self _ _, hsnd⟩
      · intro herr
        rcases hfst with ⟨iw, hiw⟩ | hmt | ⟨msg, hp⟩
        · rw [herr] at hiw
          exact absurd hiw (by simp)
        · rw [herr] at hmt
          exact absurd hmt (by simp)
        · rw [herr] at hp
          exact absurd hp (by simp)

/-- C1, witness: under `loaderC1` the character `a` succeeds on the first
fallback tag, and the tag stays appended to the working list. -/
theorem C1_witness :
    ∃ t, t ∈ styleTwoTags.fallback
      ∧ (select_font_loop loaderC1 styleTwoTags.font_size 'a' styleTwoTags.classes
            styleTwoTags.fallback).2 = styleTwoTags.classes ++ [t] :=
  (C1_tag_popped_only_on_miss loaderC1 styleTwoTags.font_size 'a'
    styleTwoTags.fallback styleTwoTags.classes).1 ⟨_, rfl⟩

/-- C1, counterexample to the claim as stated: after `a` succeeds on tag
`0`, the working list is `[0]`, not the primary `[]` — the tag was not
removed. Consequently the queries for `b` are issued with classes
`[0, 0]` and `[0, 1]`, and although the loader would resolve `b` under
the primary classes plus the second tag alone (`[1]`), the layout of
`"ab"` fails: the fonts chosen for a character do depend on which
fallback tags succeeded for earlier characters. -/
theorem C1_counterexample :
    (select_font_loop loaderC1 styleTwoTags.font_size 'a' styleTwoTags.classes
        styleTwoTags.fallback).2 = [0]
      ∧ loaderC1 { chars := ['b'], classes := styleTwoTags.classes ++ [1] }
          = some (fontGood, 0)
      ∧ layout_text loaderC1 ['a', 'b'] styleTwoTags
          = Except.error (LayoutError.NoSuitableFont 'b') := by
  exact ⟨rfl, rfl, rfl⟩

/-- C6: fallback tags are tried in listed order and the first hit wins —
with a fallback chain starting `t1, t2`, a character missed by the loader
under the primary classes plus `t1` but hit under the primary classes
plus `t2` (with readable tables) resolves via `t2`, with the width
computed from that font's metrics. -/
theorem C6_fallback_order (loader : FontLoader) (style : TextStyle) (c : Char)
    (t1 t2 : FontClass) (rest : List FontClass) (font : Font) (index upm glyph adv : Nat)
    (cmap : Char → Option Nat) (hmtx : Nat → Option Nat)
    (hfb : style.fallback = t1 :: t2 :: rest)
    (h1 : loader { chars := [c], classes := style.classes ++ [t1] } = none)
    (h2 : loader { chars := [c], classes := style.classes ++ [t2] } = some (font, index))
    (hh : font.header = some upm)
    (hcm : font.charMap = some cmap)
    (hg : cmap c = some glyph)
    (hhm : font.horizontalMetrics = some hmtx)
    (ha : hmtx glyph = some adv) :
    select_font_loop loader style.font_size c style.classes style.fallback
      = (Except.ok (index, 1 / (upm : ℚ) * (adv : ℚ) * style.font_size),
          style.classes ++ [t2]) := by
  rw [hfb, select_font_loop_cons_none loader style.font_size c style.classes t1 (t2 :: rest) h1]
  simp only [select_font_loop]
  rw [h2]
  dsimp only
  rw [hh]
  dsimp only
  rw [hcm]
  dsimp only
  rw [hg]
  dsimp only
  rw [hhm]
  dsimp only
  rw [ha]

/-- C6, witness: `loaderSecondTag` misses `c` under tag `0` and hits under
tag `1` with `fontGood` (1000 upm, advance 500), so `c` resolves via the
second tag with handle 4. -/
theorem C6_witness :
    select_font_loop loaderSecondTag styleTwoTags.font_size 'c' styleTwoTags.classes
        styleTwoTags.fallback
      = (Except.ok (4, 1 / ((1000 : Nat) : ℚ) * ((500 : Nat) : ℚ) * styleTwoTags.font_size),
          styleTwoTags.classes ++ [1]) :=
  C6_fallback_order loaderSecondTag styleTwoTags 'c' 0 1 [] fontGood 4 1000 3 500
    (fun _ => some 3) (fun _ => some 500) rfl rfl rfl rfl rfl rfl rfl rfl

end TypstText

namespace TypstText

/-- C5: on success, the layout's width is exactly the sum of the
per-character advances — each computed as
`(1 / units_per_em) * advance_units * font_size` from the font resolved
for that character — independently of how the characters were batched
into actions (the spec-side `charWidths` never looks at the action
list, the buffer or the active font). -/
theorem C5_width_is_sum_of_advances (loader : FontLoader) (style : TextStyle)
    (text : List Char) (l : Layout)
    (h : layout_text loader text style = Except.ok l) :
    ∃ ws, charWidths loader style style.classes text = some ws
      ∧ l.dimensions.x = ws.sum := by
  obtain ⟨stf, hloop, _, hx, _⟩ := layout_text_ok_elim loader text style l h
  obtain ⟨ws, hws, hw⟩ :=
    layout_loop_charWidths loader text (TextLayouter.new style) stf hloop
  refine ⟨ws, hws, ?_⟩
  rw [hx, hw]
  show (0 : ℚ) + ws.sum = ws.sum
  rw [zero_add]

/-- C5, witness: two characters under the uniform `loaderAll7`, each of
width 5, give total width 10. -/
theorem C5_witness :
    ∃ ws, charWidths loaderAll7 styleOneTag styleOneTag.classes ['a', 'b'] = some ws
      ∧ ({ dimensions := { x := 10, y := 10 }
           actions := [LayoutAction.SetFont 7 10, LayoutAction.WriteText ['a', 'b']]
           debug_render := false } : Layout).dimensions.x = ws.sum :=
  C5_width_is_sum_of_advances loaderAll7 styleOneTag ['a', 'b'] _ (by
    simp [layout_text, TextLayouter.layout, layout_loop, layout_step,
      TextLayouter.select_font, select_font_loop, TextLayouter.new,
      loaderAll7, fontGood, styleOneTag, usizeMax]
    norm_num)

/-- C9: under the font-source contract — every font resolved for a query
carries a character-map entry for each required character and metrics for
the mapped glyph — the lookups after a successful resolution never fail:
no run of `layout_text` can end in either `expect` abort, so a missing
glyph or metric is never silently skipped or substituted. -/
theorem C9_expects_unreachable (loader : FontLoader)
    (contract : ∀ q font i, loader q = some (font, i) → ∀ c ∈ q.chars,
      ∃ cmap glyph hmtx adv, font.charMap = some cmap ∧ cmap c = some glyph
        ∧ font.horizontalMetrics = some hmtx ∧ hmtx glyph = some adv) :
    ∀ (style : TextStyle) (text : List Char) (msg : String),
      layout_text loader text style ≠ Except.error (LayoutError.Panic msg) := by
  intro style text msg h
  unfold layout_text TextLayouter.layout at h
  rcases hloop : layout_loop loader text (TextLayouter.new style) with ⟨stf, o⟩
  rw [hloop] at h
  cases o with
  | none =>
    dsimp only at h
    split_ifs at h
  | some e =>
    dsimp only at h
    injection h with h'
    apply layout_loop_no_panic loader contract text (TextLayouter.new style) msg
    rw [hloop]
    dsimp only
    rw [h']

/-- C9, witness: the all-resolving `loaderAll0` satisfies the contract, so
laying out `"a"` cannot end in the char-lookup abort. -/
theorem C9_witness :
    layout_text loaderAll0 ['a'] styleOneTag
      ≠ Except.error (LayoutError.Panic "layout text: font should have char") :=
  C9_expects_unreachable loaderAll0
    (by
      intro q font i hq c hc
      simp only [loaderAll0, Option.some.injEq, Prod.mk.injEq] at hq
      obtain ⟨hf, _⟩ := hq
      subst hf
      exact ⟨_, _, _, _, rfl, rfl, rfl, rfl⟩)
    styleOneTag ['a'] "layout text: font should have char"

end TypstText

namespace TypstText

/-- C7 (amended): the initial active handle is the sentinel
`usize::MAX`. Whenever the first character resolves to a handle different
from `usize::MAX`, the comparison with the sentinel fires and the first
emitted action is a `SetFont` for that handle, before any `WriteText`.
(The sentinel is an ordinary `usize` value, so a loader returning exactly
`usize::MAX` defeats the comparison — see the counterexample.) -/
theorem C7_first_action_is_setfont (loader : FontLoader) (style : TextStyle) (c : Char)
    (rest : List Char) (index : Nat) (char_width : Size) (classes' : List FontClass)
    (l : Layout)
    (hsel : select_font_loop loader style.font_size c style.classes style.fallback
      = (Except.ok (index, char_width), classes'))
    (hi : index ≠ usizeMax)
    (hok : layout_text loader (c :: rest) style = Except.ok l) :
    l.actions.head? = some (LayoutAction.SetFont index style.font_size) := by
  obtain ⟨stf, hloop, hacts, _, _⟩ := layout_text_ok_elim loader (c :: rest) style l hok
  have hsel' : select_font_loop loader (TextLayouter.new style).style.font_size c
      (TextLayouter.new style).classes (TextLayouter.new style).style.fallback
      = (Except.ok (index, char_width), classes') := hsel
  rw [layout_loop_cons_ok loader c rest (TextLayouter.new style) index char_width classes'
    hsel'] at hloop
  obtain ⟨suf, hsuf⟩ := layout_loop_actions_extend loader rest
    (layout_step { TextLayouter.new style with classes := classes' } c index char_width)
  rw [hloop] at hsuf
  dsimp only at hsuf
  rw [layout_step_switch { TextLayouter.new style with classes := classes' } c index
    char_width (fun hh => hi hh.symm) rfl] at hsuf
  simp only [TextLayouter.new, List.nil_append] at hsuf
  rcases hacts with ⟨hb, hla⟩ | ⟨hb, hla⟩ <;> rw [hla, hsuf] <;> simp

/-- C7, witness: under `loaderAll7` the first character resolves to handle
7 ≠ `usize::MAX`, and the first action of the layout of `"a"` is
`SetFont(7, 10)`. -/
theorem C7_witness :
    ({ dimensions := { x := 5, y := 10 }
       actions := [LayoutAction.SetFont 7 10, LayoutAction.WriteText ['a']]
       debug_render := false } : Layout).actions.head?
      = some (LayoutAction.SetFont 7 styleOneTag.font_size) :=
  C7_first_action_is_setfont loaderAll7 styleOneTag 'a' [] 7
    (1 / ((1000 : Nat) : ℚ) * ((500 : Nat) : ℚ) * styleOneTag.font_size) [0] _
    rfl
    (by decide)
    (by
      simp [layout_text, TextLayouter.layout, layout_loop, layout_step,
        TextLayouter.select_font, select_font_loop, TextLayouter.new,
        loaderAll7, fontGood, styleOneTag, usizeMax]
      norm_num)

/-- C7, counterexample to the claim as stated: a loader whose handle is
exactly `usize::MAX` — the sentinel — makes the font-change comparison
fail on the very first character, so the layout of `"z"` contains no
`SetFont` at all and its first action is a `WriteText`. -/
theorem C7_counterexample :
    layout_text loaderMaxWide ['z'] styleSentinel
      = Except.ok { dimensions := { x := 14, y := 7 }
                    actions := [LayoutAction.WriteText ['z']]
                    debug_render := false }
      ∧ countSetFont [LayoutAction.WriteText ['z']] = 0 := by
  constructor
  · simp [layout_text, TextLayouter.layout, layout_loop, layout_step,
      TextLayouter.select_font, select_font_loop, TextLayouter.new,
      loaderMaxWide, fontWide, styleSentinel]
    norm_num
  · rfl

end TypstText

namespace TypstText

/-- C3 (amended): for every successful layout, replaying the action list
from the sentinel shows that every `SetFont` changes the current font —
in particular there are never two consecutive `SetFont` actions for the
same handle — and the `WriteText` payloads concatenate, in order, to the
input text. When every query resolves to one same font whose handle
differs from `usize::MAX`, a non-empty text yields exactly one `SetFont`;
if the common handle is `usize::MAX` itself, the sentinel comparison
never fires and no `SetFont` is emitted (see the counterexample). -/
theorem C3_batching_invariant (loader : FontLoader) (style : TextStyle) :
    (∀ (text : List Char) (l : Layout),
        layout_text loader text style = Except.ok l →
        replayValid usizeMax l.actions ∧ writtenText l.actions = text)
      ∧ (∀ (F : Font) (i0 : Nat), (∀ q, loader q = some (F, i0)) → i0 ≠ usizeMax →
          ∀ (text : List Char) (l : Layout), text ≠ [] →
            layout_text loader text style = Except.ok l →
            countSetFont l.actions = 1 ∧ writtenText l.actions = text) := by
  have part1 : ∀ (text : List Char) (l : Layout),
      layout_text loader text style = Except.ok l →
      replayValid usizeMax l.actions ∧ writtenText l.actions = text := by
    intro text l hok
    obtain ⟨stf, hloop, hacts, _, _⟩ := layout_text_ok_elim loader text style l hok
    obtain ⟨hv, hl, hw⟩ := layout_loop_batching loader text (TextLayouter.new style) stf
      usizeMax hloop trivial rfl
    simp only [TextLayouter.new, writtenText, List.append_nil, List.nil_append] at hw
    rcases hacts with ⟨hb, hla⟩ | ⟨hb, hla⟩
    · rw [hb, List.append_nil] at hw
      exact ⟨by rw [hla]; exact hv, by rw [hla]; exact hw⟩
    · refine ⟨?_, ?_⟩
      · rw [hla, replayValid_append]
        exact ⟨hv, trivial⟩
      · rw [hla, writtenText_append]
        simpa [writtenText] using hw
  refine ⟨part1, ?_⟩
  intro F i0 hu hi0 text l htne hok
  refine ⟨?_, (part1 text l hok).2⟩
  obtain ⟨stf, hloop, hacts, _, _⟩ := layout_text_ok_elim loader text style l hok
  cases text with
  | nil => exact absurd rfl htne
  | cons c rest =>
    rcases hsel : select_font_loop loader (TextLayouter.new style).style.font_size c
        (TextLayouter.new style).classes (TextLayouter.new style).style.fallback
      with ⟨res, classes'⟩
    cases res with
    | error e =>
      rw [layout_loop_cons_err loader c rest (TextLayouter.new style) e classes' hsel] at hloop
      exact absurd (congrArg Prod.snd hloop) (by simp)
    | ok iw =>
      rcases iw with ⟨index, cw⟩
      have hidx : index = i0 :=
        select_font_loop_uniform loader F i0 hu (TextLayouter.new style).style.font_size c
          (TextLayouter.new style).classes (TextLayouter.new style).style.fallback
          index cw classes' hsel
      have hne : ({ TextLayouter.new style with classes := classes' } : TextLayouter).active_font
          ≠ index := by
        show usizeMax ≠ index
        rw [hidx]
        exact Ne.symm hi0
      rw [layout_loop_cons_ok loader c rest (TextLayouter.new style) index cw classes'
        hsel] at hloop
      rw [layout_step_switch { TextLayouter.new style with classes := classes' } c index cw
        hne rfl] at hloop
      obtain ⟨hfin, heq⟩ := layout_loop_uniform loader F i0 hu rest _ stf hloop
        (show index = i0 from hidx)
      have hact : stf.actions = [LayoutAction.SetFont index style.font_size] := by
        rw [heq]
        simp [TextLayouter.new]
      rcases hacts with ⟨hb, hla⟩ | ⟨hb, hla⟩
      · rw [hla, hact]
        rfl
      · rw [hla, hact, countSetFont_append]
        rfl

/-- C3, witness: instantiating the uniform-font part at `loaderAll7` and
the text `"ab"`, whose layout is one `SetFont(7, 10)` then one
`WriteText("ab")`. -/
theorem C3_witness :
    countSetFont ({ dimensions := { x := 10, y := 10 }
                    actions := [LayoutAction.SetFont 7 10, LayoutAction.WriteText ['a', 'b']]
                    debug_render := false } : Layout).actions = 1
      ∧ writtenText ({ dimensions := { x := 10, y := 10 }
                       actions := [LayoutAction.SetFont 7 10, LayoutAction.WriteText ['a', 'b']]
                       debug_render := false } : Layout).actions = ['a', 'b'] :=
  (C3_batching_invariant loaderAll7 styleOneTag).2 fontGood 7 (fun _ => rfl)
    (by decide) ['a', 'b'] _ (by simp)
    (by
      simp [layout_text, TextLayouter.layout, layout_loop, layout_step,
        TextLayouter.select_font, select_font_loop, TextLayouter.new,
        loaderAll7, fontGood, styleOneTag, usizeMax]
      norm_num)

/-- C3, counterexample to the "exactly one SetFont" part as stated: under
a loader that resolves every query to the same font with handle
`usize::MAX`, all characters resolve to the same font, yet the layout of
`"a"` contains zero `SetFont` actions, not one. -/
theorem C3_counterexample :
    loaderMax { chars := ['a'], classes := [0] } = some (fontGood, usizeMax)
      ∧ layout_text loaderMax ['a'] styleOneTag
          = Except.ok { dimensions := { x := 5, y := 10 }
                        actions := [LayoutAction.WriteText ['a']]
                        debug_render := false }
      ∧ countSetFont [LayoutAction.WriteText ['a']] = 0 := by
  refine ⟨rfl, ?_, rfl⟩
  simp [layout_text, TextLayouter.layout, layout_loop, layout_step,
    TextLayouter.select_font, select_font_loop, TextLayouter.new,
    loaderMax, fontGood, styleOneTag]
  norm_num

end TypstText
